import Mathlib

/-!
# Verification of the stock-prediction backend against its specification

Shallow embedding of the market-data normalization, indicator, signal and
relay logic of the repository (FastAPI backend + services), together with
theorems settling the specification claims.

Conventions of the embedding:
* dates are day ordinals in `ℤ` (Python `datetime.date` with
  `timedelta(days=n)` arithmetic);
* float arithmetic of the source is modelled exactly over `ℚ` (the literals
  involved — `1e-12`, `0.98`, `1.02`, `0.2`, `100` — are exact in `ℚ`);
* a pandas `NaN` cell is `none : Option ℚ`; a comparison against `NaN` is
  `False` in pandas, and `Series.where(cond, other)` replaces entries where
  `cond` is `False` by `other` — both behaviours are reproduced literally;
* fallible Python code (a `raise` reaching the caller, an HTTP error
  response) is `Option`/`Except`.
-/

namespace StockPred

/-! ## IntervalPolicy — `backend/main.py`, `candles` handler (lines 105-135)

The handler's date-range normalization:
```
interval_allowed = {"1minute": 30, "30minute": 90, "day": 3650, "week": 3650, "month": 3650}
if body.interval not in interval_allowed: raise HTTPException(400, "Invalid interval")
max_lookback_days = interval_allowed[body.interval]
end = body.to_date
start = body.from_date or (end - timedelta(days=max_lookback_days - 1))
if start > end: start, end = end, start
min_allowed = end - timedelta(days=max_lookback_days - 1)
if start < min_allowed: start = min_allowed
```
-/

/-- The `interval_allowed` policy table of the `/candles` handler:
maximum lookback window in days per granularity kind; `none` means the
handler raises `HTTPException(400, "Invalid interval")`. -/
def intervalAllowed : String → Option ℕ
  | "1minute" => some 30
  | "30minute" => some 90
  | "day" => some 3650
  | "week" => some 3650
  | "month" => some 3650
  | _ => none

/-- The effective date range produced by the `/candles` handler. -/
structure ClampedRange where
  effective_from : ℤ
  effective_to : ℤ
deriving DecidableEq

/-- Date-range normalization of the `/candles` handler: default the start to
`end - (max_lookback - 1)` when absent, swap when `start > end`, then clamp
the start up to `end - (max_lookback - 1)`. `none` = HTTP 400 for an
unrecognized interval. -/
def normalizeRange (interval : String) (fromDate? : Option ℤ) (toDate : ℤ) :
    Option ClampedRange :=
  match intervalAllowed interval with
  | none => none
  | some maxLookback =>
    let endD : ℤ := toDate
    let startD : ℤ := fromDate?.getD (endD - ((maxLookback : ℤ) - 1))
    let swapped : ℤ × ℤ := if startD > endD then (endD, startD) else (startD, endD)
    let minAllowed : ℤ := swapped.2 - ((maxLookback : ℤ) - 1)
    let startClamped : ℤ := if swapped.1 < minAllowed then minAllowed else swapped.1
    some ⟨startClamped, swapped.2⟩

/-- Every lookback bound in the policy table is at least 1. -/
theorem intervalAllowed_pos {i : String} {m : ℕ} (h : intervalAllowed i = some m) :
    1 ≤ m := by
  unfold intervalAllowed at h
  split at h <;> simp_all <;> omega

/-- C1: For every recognized granularity kind, every `to_date` and any optional
`from_date`, the `/candles` normalization succeeds (never errors) and yields
`effective_from ≤ effective_to` with a span of at most `max_lookback − 1`
days; an absent `from_date` defaults exactly to `to_date − (max_lookback − 1)`,
and a requested `from_date` earlier than that bound is silently clamped up to
it. -/
theorem candles_range_normalization (interval : String) (m : ℕ)
    (hm : intervalAllowed interval = some m)
    (fromDate? : Option ℤ) (toDate : ℤ) :
    ∃ r : ClampedRange,
      normalizeRange interval fromDate? toDate = some r ∧
      r.effective_from ≤ r.effective_to ∧
      r.effective_to - r.effective_from ≤ (m : ℤ) - 1 ∧
      (fromDate? = none →
        r.effective_from = toDate - ((m : ℤ) - 1) ∧ r.effective_to = toDate) ∧
      (∀ f : ℤ, fromDate? = some f → f ≤ toDate → f < toDate - ((m : ℤ) - 1) →
        r.effective_from = toDate - ((m : ℤ) - 1) ∧ r.effective_to = toDate) := by
  have hm1 : 1 ≤ m := intervalAllowed_pos hm
  have hm1' : (1 : ℤ) ≤ (m : ℤ) := by exact_mod_cast hm1
  simp only [normalizeRange, hm]
  cases fromDate? with
  | none =>
    refine ⟨_, rfl, ?_, ?_, ?_, ?_⟩ <;>
      simp only [Option.getD_some, Option.getD_none] <;>
      split_ifs <;>
      simp_all <;> omega
  | some f =>
    refine ⟨_, rfl, ?_, ?_, ?_, ?_⟩ <;>
      simp only [Option.getD_some, Option.getD_none] <;>
      split_ifs <;>
      simp_all <;> omega

/-- Witness for C1 at interval `"1minute"` (lookback 30), absent `from_date`,
`to_date = 0`. -/
theorem candles_range_normalization_witness :
    intervalAllowed "1minute" = some 30 ∧
    ∃ r : ClampedRange,
      normalizeRange "1minute" none 0 = some r ∧
      r.effective_from ≤ r.effective_to ∧
      r.effective_to - r.effective_from ≤ (30 : ℤ) - 1 ∧
      ((none : Option ℤ) = none →
        r.effective_from = 0 - ((30 : ℤ) - 1) ∧ r.effective_to = 0) ∧
      (∀ f : ℤ, (none : Option ℤ) = some f → f ≤ 0 → f < 0 - ((30 : ℤ) - 1) →
        r.effective_from = 0 - ((30 : ℤ) - 1) ∧ r.effective_to = 0) :=
  ⟨rfl, candles_range_normalization "1minute" 30 rfl none 0⟩

/-- C8: For a recognized granularity kind and dates `f > t`, normalizing with
the two dates swapped in the request yields exactly the same effective range:
the handler swaps them back silently instead of erroring. -/
theorem normalize_swapped_inputs (interval : String) (m : ℕ)
    (hm : intervalAllowed interval = some m) (f t : ℤ) (h : t < f) :
    normalizeRange interval (some t) f = normalizeRange interval (some f) t := by
  simp only [normalizeRange, hm, Option.getD_some]
  have h1 : ¬ (t > f) := by omega
  have h2 : f > t := h
  simp [h1, h2]

/-- Witness for C8 at interval `"day"`, `f = 5 > t = 3`. -/
theorem normalize_swapped_inputs_witness :
    intervalAllowed "day" = some 3650 ∧ (3 : ℤ) < 5 ∧
    normalizeRange "day" (some 3) 5 = normalizeRange "day" (some 5) 3 :=
  ⟨rfl, by decide, normalize_swapped_inputs "day" 3650 rfl 5 3 (by decide)⟩

/-! ## IndicatorEngine — `services/indicators.py`

A pandas `Series` over the bar index is a `List ℚ` (no `NaN`) or a
`List (Option ℚ)` (`none` = `NaN`).  Row-wise arithmetic on aligned columns
is expressed by mapping over `List.range length` and reading each column at
the row index with `List.getD`. -/

/-- Pandas `series.diff()`: `NaN` at row 0, `series[i] − series[i−1]` afterwards. -/
def seriesDiff (xs : List ℚ) : List (Option ℚ) :=
  match xs with
  | [] => []
  | _ :: tail => none :: List.zipWith (fun prev cur => some (cur - prev)) xs tail

/-- Pandas `series.rolling(n).mean()` over a `NaN`-free column with the default
`min_periods = n`: `NaN` until the window is filled, then the arithmetic
mean of the trailing `n` entries. -/
def rollingMean (n : ℕ) (xs : List ℚ) : List (Option ℚ) :=
  (List.range xs.length).map fun i =>
    if i + 1 < n then none
    else some (((xs.drop (i + 1 - n)).take n).sum / (n : ℚ))

/-- Pandas `series.rolling(n).mean()` over a column that may contain `NaN`
(default `min_periods = n`, so a window containing any `NaN` has fewer than
`n` observations and yields `NaN`). -/
def rollingMeanOpt (n : ℕ) (xs : List (Option ℚ)) : List (Option ℚ) :=
  (List.range xs.length).map fun i =>
    if i + 1 < n then none
    else
      let w := (xs.drop (i + 1 - n)).take n
      if w.all Option.isSome then some ((w.map (fun o => o.getD 0)).sum / (n : ℚ))
      else none

/-- Square of `series.rolling(n).std()`: the rolling *sample* variance
(pandas default `ddof = 1`).  The Bollinger bands of the source are
`mean ± 2·√variance`; the square root of a rational is kept symbolic by
storing the variance, which loses nothing for the claims (they concern row
counts, not band values). -/
def rollingVar (n : ℕ) (xs : List ℚ) : List (Option ℚ) :=
  (List.range xs.length).map fun i =>
    if i + 1 < n then none
    else
      let w := (xs.drop (i + 1 - n)).take n
      let m := w.sum / (n : ℚ)
      some ((w.map fun x => (x - m) ^ 2).sum / ((n : ℚ) - 1))

/-- The `delta.where(delta > 0, 0.0)` step of `_rsi`: pandas `where` keeps entries
where the condition is `True` and writes `0.0` where it is `False`; the
comparison `NaN > 0` is `False`, so the leading `NaN` of `diff` becomes
`0.0` here (it is *not* propagated). -/
def rsiGain (closes : List ℚ) : List ℚ :=
  (seriesDiff closes).map fun d =>
    match d with
    | none => 0
    | some x => if x > 0 then x else 0

/-- The `(-delta.where(delta < 0, 0.0))` step of `_rsi`; the leading `NaN` again
becomes `0.0` (negated). -/
def rsiLoss (closes : List ℚ) : List ℚ :=
  (seriesDiff closes).map fun d =>
    match d with
    | none => 0
    | some x => if x < 0 then -x else 0

/-- Model of `_rsi(series, period)`: simple rolling means of gains and losses,
`rs = gain / (loss + 1e-12)`, `rsi = 100 − 100 / (1 + rs)`.  Row-wise
arithmetic on a `NaN` operand yields `NaN`. -/
def rsiSeries (closes : List ℚ) (period : ℕ) : List (Option ℚ) :=
  let gain := rollingMean period (rsiGain closes)
  let loss := rollingMean period (rsiLoss closes)
  (List.range closes.length).map fun i =>
    match gain.getD i none, loss.getD i none with
    | some g, some l => some (100 - 100 / (1 + g / (l + 1 / 10 ^ 12)))
    | _, _ => none

/-- Tail of `series.ewm(span, adjust=False).mean()` given the running value:
`e[i] = e[i−1] + α·(x[i] − e[i−1])`. -/
def emaFrom (alpha : ℚ) (prev : ℚ) : List ℚ → List ℚ
  | [] => []
  | x :: xs =>
    let e := prev + alpha * (x - prev)
    e :: emaFrom alpha e xs

/-- Model of `_ema(series, span) = series.ewm(span=span, adjust=False).mean()`:
seeded with the first value, `α = 2 / (span + 1)`. -/
def ema (span : ℕ) : List ℚ → List ℚ
  | [] => []
  | x :: xs => x :: emaFrom (2 / ((span : ℚ) + 1)) x xs

/-- Raw plus movement `out["high"] - out["high"].shift(1)` (a diff of highs);
`NaN` at row 0. -/
def rawPlusDM (highs : List ℚ) : List (Option ℚ) :=
  seriesDiff highs

/-- Raw minus movement `out["low"].shift(1) - out["low"]` (the negated diff of lows);
`NaN` at row 0. -/
def rawMinusDM (lows : List ℚ) : List (Option ℚ) :=
  (seriesDiff lows).map (Option.map fun d => -d)

/-- The reassignment `plus_dm = plus_dm.where((plus_dm > minus_dm) & (plus_dm > 0), 0.0)`:
the comparison is against the *raw* minus move; any comparison involving
`NaN` is `False`, so `NaN` rows become `0.0`. -/
def plusDM (highs lows : List ℚ) : List ℚ :=
  (List.range highs.length).map fun i =>
    match (rawPlusDM highs).getD i none, (rawMinusDM lows).getD i none with
    | some p, some m => if p > m ∧ p > 0 then p else 0
    | _, _ => 0

/-- The reassignment `minus_dm = minus_dm.where((minus_dm > plus_dm) & (minus_dm > 0), 0.0)`:
executed *after* the `plus_dm` reassignment, so the comparison is against the
already-zeroed `plus_dm` column, not the raw up-move. -/
def minusDM (highs lows : List ℚ) : List ℚ :=
  (List.range lows.length).map fun i =>
    match (rawMinusDM lows).getD i none with
    | some m => if m > (plusDM highs lows).getD i 0 ∧ m > 0 then m else 0
    | none => 0

/-- True range: `max(|high−low|, |high−prev_close|, |low−prev_close|)`;
row 0 has no previous close and `DataFrame.max(axis=1)` skips `NaN`, so it
degenerates to `|high−low|`. -/
def trueRange (highs lows closes : List ℚ) : List ℚ :=
  (List.range highs.length).map fun i =>
    let hl := |highs.getD i 0 - lows.getD i 0|
    if i = 0 then hl
    else
      let pc := closes.getD (i - 1) 0
      max hl (max |highs.getD i 0 - pc| |lows.getD i 0 - pc|)

/-- Model of `plus_di = 100 * (plus_dm.rolling(14).mean() / atr.replace(0, np.nan))`:
a zero ATR is replaced by `NaN`, making the indicator unavailable there. -/
def plusDI (highs lows closes : List ℚ) : List (Option ℚ) :=
  (List.range highs.length).map fun i =>
    match (rollingMean 14 (plusDM highs lows)).getD i none,
          (rollingMean 14 (trueRange highs lows closes)).getD i none with
    | some dm, some atr => if atr = 0 then none else some (100 * (dm / atr))
    | _, _ => none

/-- Model of `minus_di`, analogously. -/
def minusDI (highs lows closes : List ℚ) : List (Option ℚ) :=
  (List.range highs.length).map fun i =>
    match (rollingMean 14 (minusDM highs lows)).getD i none,
          (rollingMean 14 (trueRange highs lows closes)).getD i none with
    | some dm, some atr => if atr = 0 then none else some (100 * (dm / atr))
    | _, _ => none

/-- Model of `dx = 100 * |plus_di - minus_di| / (plus_di + minus_di).replace(0, nan)`. -/
def dxSeries (highs lows closes : List ℚ) : List (Option ℚ) :=
  (List.range highs.length).map fun i =>
    match (plusDI highs lows closes).getD i none,
          (minusDI highs lows closes).getD i none with
    | some p, some m => if p + m = 0 then none else some (100 * |p - m| / (p + m))
    | _, _ => none

/-- One OHLCV bar (`open` is a Lean keyword, hence `open_`). -/
structure Bar where
  time : ℤ
  open_ : ℚ
  high : ℚ
  low : ℚ
  close : ℚ
  volume : ℚ
  oi : Option ℚ
deriving DecidableEq

/-- One row of the `add_indicators` output: the input bar plus the derived
columns (a column is `none` where the source has `NaN`).  The EMA-family
columns are total.  `bb_var` stands for the squared `rolling(20).std()`, see
`rollingVar`. -/
structure IndicatorRow where
  bar : Bar
  sma_20 : Option ℚ
  sma_50 : Option ℚ
  ema_12 : ℚ
  ema_26 : ℚ
  rsi : Option ℚ
  macd : ℚ
  macd_signal : ℚ
  bb_mid : Option ℚ
  bb_var : Option ℚ
  atr_14 : Option ℚ
  adx_14 : Option ℚ
  ema_200 : ℚ
deriving DecidableEq

/-- Model of `add_indicators(df)`: returns the input unchanged when empty, otherwise
assigns each indicator column; pandas column assignment aligns on the row
index and never changes the row count, so the output has exactly one row per
input bar, in order. -/
def add_indicators (bars : List Bar) : List IndicatorRow :=
  if bars.isEmpty then []
  else
    let closes := bars.map Bar.close
    let highs := bars.map Bar.high
    let lows := bars.map Bar.low
    let e12 := ema 12 closes
    let e26 := ema 26 closes
    let macdCol := (List.range bars.length).map fun i => e12.getD i 0 - e26.getD i 0
    List.ofFn fun j : Fin bars.length =>
      { bar := bars.get j
        sma_20 := (rollingMean 20 closes).getD j none
        sma_50 := (rollingMean 50 closes).getD j none
        ema_12 := e12.getD j 0
        ema_26 := e26.getD j 0
        rsi := (rsiSeries closes 14).getD j none
        macd := macdCol.getD j 0
        macd_signal := (ema 9 macdCol).getD j 0
        bb_mid := (rollingMean 20 closes).getD j none
        bb_var := (rollingVar 20 closes).getD j none
        atr_14 := (rollingMean 14 (trueRange highs lows closes)).getD j none
        adx_14 := (rollingMeanOpt 14 (dxSeries highs lows closes)).getD j none
        ema_200 := (ema 200 closes).getD j 0 }

/-! ### Helper lemmas for reading a row of a column -/

/-- Reading a row-indexed column `(List.range n).map f` at a row `i < n`. -/
theorem getD_map_range {α : Type _} (n : ℕ) (f : ℕ → α) (d : α) (i : ℕ)
    (h : i < n) : ((List.range n).map f).getD i d = f i := by
  simp [List.getD_eq_getElem?_getD, List.getElem?_map, List.getElem?_range, h]

/-- Reading a row-indexed column out of range gives the default. -/
theorem getD_map_range_ge {α : Type _} (n : ℕ) (f : ℕ → α) (d : α) (i : ℕ)
    (h : n ≤ i) : ((List.range n).map f).getD i d = d := by
  have hlen : ((List.range n).map f).length ≤ i := by simpa using h
  simp [List.getD_eq_getElem?_getD, List.getElem?_eq_none hlen]

/-- The `diff` output preserves the series length. -/
theorem seriesDiff_length (xs : List ℚ) : (seriesDiff xs).length = xs.length := by
  cases xs with
  | nil => rfl
  | cons x t => simp [seriesDiff]

/-- The gain column has one entry per close. -/
theorem rsiGain_length (closes : List ℚ) :
    (rsiGain closes).length = closes.length := by
  simp [rsiGain, seriesDiff_length]

/-- The loss column has one entry per close. -/
theorem rsiLoss_length (closes : List ℚ) :
    (rsiLoss closes).length = closes.length := by
  simp [rsiLoss, seriesDiff_length]

/-- A rolling mean is `NaN` while the window is not yet filled. -/
theorem rollingMean_getD_of_lt (n : ℕ) (xs : List ℚ) (i : ℕ) (h : i + 1 < n) :
    (rollingMean n xs).getD i none = none := by
  unfold rollingMean
  rcases Nat.lt_or_ge i xs.length with hi | hi
  · rw [getD_map_range _ _ _ _ hi]
    simp [h]
  · rw [getD_map_range_ge _ _ _ _ hi]

/-- A rolling mean with a filled window is the mean of the trailing `n`. -/
theorem rollingMean_getD_of_ge (n : ℕ) (xs : List ℚ) (i : ℕ)
    (hi : i < xs.length) (h : n ≤ i + 1) :
    (rollingMean n xs).getD i none =
      some (((xs.drop (i + 1 - n)).take n).sum / (n : ℚ)) := by
  unfold rollingMean
  rw [getD_map_range _ _ _ _ hi]
  simp [Nat.not_lt.mpr h]

/-- The spec's worked example: 25 daily closes `[100, 101, …, 124]`. -/
def exampleCloses : List ℚ :=
  [100, 101, 102, 103, 104, 105, 106, 107, 108, 109, 110, 111, 112,
   113, 114, 115, 116, 117, 118, 119, 120, 121, 122, 123, 124]

theorem exampleCloses_gain : rsiGain exampleCloses =
    [0, 1, 1, 1, 1, 1, 1, 1, 1, 1, 1, 1, 1, 1, 1, 1, 1, 1, 1, 1, 1, 1, 1, 1, 1] := by
  norm_num [rsiGain, seriesDiff, exampleCloses]

theorem exampleCloses_loss : rsiLoss exampleCloses =
    [0, 0, 0, 0, 0, 0, 0, 0, 0, 0, 0, 0, 0, 0, 0, 0, 0, 0, 0, 0, 0, 0, 0, 0, 0] := by
  norm_num [rsiLoss, seriesDiff, exampleCloses]

/-- C4 counterexample: on the spec's own 25-bar example `[100,…,124]` the RSI
column is already *available* (non-`NaN`) at row 13, contradicting
"unavailable at row 13 and earlier": `delta.where(delta > 0, 0.0)` replaces
the leading `NaN` of `diff` by `0.0`, so the 14-entry rolling window is
complete at row 13. -/
theorem rsi_row13_available_counterexample :
    ((rsiSeries exampleCloses 14).getD 13 none).isSome = true := by
  have h13 : (13 : ℕ) < exampleCloses.length := by norm_num [exampleCloses]
  have hg : (13 : ℕ) < (rsiGain exampleCloses).length := by
    rw [rsiGain_length]; exact h13
  have hl : (13 : ℕ) < (rsiLoss exampleCloses).length := by
    rw [rsiLoss_length]; exact h13
  simp only [rsiSeries]
  rw [getD_map_range _ _ _ _ h13,
    rollingMean_getD_of_ge 14 _ 13 hg (by norm_num),
    rollingMean_getD_of_ge 14 _ 13 hl (by norm_num)]
  rfl

/-- C4 amended: the RSI column (simple rolling 14-means of gains and of loss
magnitudes, `rs = gain/(loss + 1e-12)`, `100 − 100/(1+rs)`, no Wilder
smoothing) is unavailable at row 12 and earlier and first available at
row 13, because the leading `NaN` delta is coerced to `0.0` by `where`;
at every available row it equals the formula over the trailing 14 deltas, and
for the 25-bar example `[100,…,124]` row 24 equals `100 − 100/(1+10¹²)`,
which is within `10⁻⁹` of 100. -/
theorem rsi_availability_and_example :
    (∀ (closes : List ℚ) (i : ℕ), i ≤ 12 →
      (rsiSeries closes 14).getD i none = none) ∧
    (∀ closes : List ℚ, 14 ≤ closes.length →
      ((rsiSeries closes 14).getD 13 none).isSome = true) ∧
    (∀ (closes : List ℚ) (i : ℕ), 13 ≤ i → i < closes.length →
      (rsiSeries closes 14).getD i none =
        some (100 - 100 /
          (1 + (((rsiGain closes).drop (i + 1 - 14)).take 14).sum / (14 : ℚ) /
            ((((rsiLoss closes).drop (i + 1 - 14)).take 14).sum / (14 : ℚ) +
              1 / 10 ^ 12)))) ∧
    (rsiSeries exampleCloses 14).getD 24 none =
      some (100 - 100 / (1 + 10 ^ 12)) ∧
    (100 : ℚ) - 1 / 10 ^ 9 < 100 - 100 / (1 + 10 ^ 12) ∧
    (100 : ℚ) - 100 / (1 + 10 ^ 12) ≤ 100 := by
  have formula : ∀ (closes : List ℚ) (i : ℕ), 13 ≤ i → i < closes.length →
      (rsiSeries closes 14).getD i none =
        some (100 - 100 /
          (1 + (((rsiGain closes).drop (i + 1 - 14)).take 14).sum / (14 : ℚ) /
            ((((rsiLoss closes).drop (i + 1 - 14)).take 14).sum / (14 : ℚ) +
              1 / 10 ^ 12))) := by
    intro closes i h13 hi
    have hg : i < (rsiGain closes).length := by rw [rsiGain_length]; exact hi
    have hl : i < (rsiLoss closes).length := by rw [rsiLoss_length]; exact hi
    simp only [rsiSeries]
    rw [getD_map_range _ _ _ _ hi,
      rollingMean_getD_of_ge 14 _ i hg (by omega),
      rollingMean_getD_of_ge 14 _ i hl (by omega)]
    norm_num
  refine ⟨?_, ?_, formula, ?_, by norm_num, by norm_num⟩
  · intro closes i hi
    simp only [rsiSeries]
    rcases Nat.lt_or_ge i closes.length with h | h
    · rw [getD_map_range _ _ _ _ h,
        rollingMean_getD_of_lt 14 _ i (by omega)]
    · rw [getD_map_range_ge _ _ _ _ h]
  · intro closes hlen
    have h13 : (13 : ℕ) < closes.length := by omega
    rw [formula closes 13 le_rfl h13]
    rfl
  · rw [formula exampleCloses 24 (by norm_num) (by norm_num [exampleCloses])]
    rw [exampleCloses_gain, exampleCloses_loss]
    norm_num

/-- Witness for C4's amended theorem: its universally quantified parts applied
to the concrete example (rows 5 and 13). -/
theorem rsi_availability_and_example_witness :
    (rsiSeries exampleCloses 14).getD 5 none = none ∧
    ((rsiSeries exampleCloses 14).getD 13 none).isSome = true :=
  ⟨rsi_availability_and_example.1 exampleCloses 5 (by norm_num),
   rsi_availability_and_example.2.1 exampleCloses (by norm_num [exampleCloses])⟩

/-- C5 counterexample: two bars with highs `[10, 11]` and lows `[5, 4]` —
the raw up-move and down-move both equal `1 > 0`, so the claim requires both
directional movements to be zeroed at row 1; the code zeroes `plus_dm` but
keeps `minus_dm = 1`, because the `minus_dm` condition compares against the
*already reassigned* `plus_dm` column (now `0`), not the raw up-move. -/
theorem dm_tie_not_both_zeroed_counterexample :
    rawPlusDM [10, 11] = [none, some 1] ∧
    rawMinusDM [5, 4] = [none, some 1] ∧
    plusDM [10, 11] [5, 4] = [0, 0] ∧
    minusDM [10, 11] [5, 4] = [0, 1] := by
  refine ⟨?_, ?_, ?_, ?_⟩ <;>
    norm_num [rawPlusDM, rawMinusDM, seriesDiff, plusDM, minusDM,
      List.range_succ, List.getD]

/-- C5 amended: `plus_dm` at a row is zeroed unless it strictly exceeds the
raw down-move and is strictly positive; `minus_dm` is zeroed unless it
strictly exceeds the *already-updated* `plus_dm` value and is strictly
positive.  Consequently, on an equal positive tie `plus_dm` is zeroed while
`minus_dm` keeps the raw down-move. -/
theorem dm_zeroing (highs lows : List ℚ) (i : ℕ) (p m : ℚ)
    (hih : i < highs.length) (hil : i < lows.length)
    (hp : (rawPlusDM highs).getD i none = some p)
    (hm : (rawMinusDM lows).getD i none = some m) :
    (plusDM highs lows).getD i 0 = (if p > m ∧ p > 0 then p else 0) ∧
    (minusDM highs lows).getD i 0 =
      (if m > (if p > m ∧ p > 0 then p else 0) ∧ m > 0 then m else 0) ∧
    (p = m → 0 < p →
      (plusDM highs lows).getD i 0 = 0 ∧ (minusDM highs lows).getD i 0 = m) := by
  have h1 : (plusDM highs lows).getD i 0 = (if p > m ∧ p > 0 then p else 0) := by
    unfold plusDM
    rw [getD_map_range _ _ _ _ hih, hp, hm]
  have h2 : (minusDM highs lows).getD i 0 =
      (if m > (if p > m ∧ p > 0 then p else 0) ∧ m > 0 then m else 0) := by
    unfold minusDM
    rw [getD_map_range _ _ _ _ hil, hm, h1]
  refine ⟨h1, h2, fun hpm hpos => ?_⟩
  subst hpm
  constructor
  · rw [h1, if_neg]
    rintro ⟨hgt, -⟩
    exact lt_irrefl p hgt
  · rw [h2]
    simp [lt_irrefl, hpos]

/-- Witness for C5's amended theorem: the tie consequence at the concrete
two-bar input. -/
theorem dm_zeroing_witness :
    (plusDM [10, 11] [5, 4]).getD 1 0 = 0 ∧
    (minusDM [10, 11] [5, 4]).getD 1 0 = 1 :=
  (dm_zeroing [10, 11] [5, 4] 1 1 1 (by norm_num) (by norm_num)
    (by norm_num [rawPlusDM, seriesDiff])
    (by norm_num [rawMinusDM, seriesDiff])).2.2 rfl (by norm_num)

/-- C7: `add_indicators` yields exactly one output row per input bar with
order preserved (the output's bars, in order, are the input), and an empty
input is returned unchanged. -/
theorem compute_length_and_order (bars : List Bar) :
    (add_indicators bars).length = bars.length ∧
    (add_indicators bars).map IndicatorRow.bar = bars ∧
    add_indicators [] = [] := by
  refine ⟨?_, ?_, rfl⟩
  · cases bars with
    | nil => rfl
    | cons b t => simp [add_indicators, List.length_ofFn]
  · cases bars with
    | nil => rfl
    | cons b t =>
      rw [add_indicators, if_neg (by simp), List.map_ofFn]
      exact List.ofFn_get (b :: t)

/-! ## SignalGateway — `services/openai_signals.py`, `get_trade_signal`

The OpenAI call is the external boundary: `backend = some parsed` models a
successful structured completion, `backend = none` models the call (or its
parsing) raising, which the source catches in its `except` branch.  The
`candles` argument is abstracted to its close column (the only part the
modelled fields read).  `apiKey` models `os.getenv("API_KEY_OPENAI")`.
Fields of the returned dicts not mentioned by any claim (indicator snapshot,
metrics, optional extras, risk/reward post-processing) are omitted. -/

/-- Python `a or b` on an optional string: `None` and `""` are falsy. -/
def pyOr (a : Option String) (b : String) : String :=
  match a with
  | none => b
  | some s => if s = "" then b else s

/-- The fields of the parsed `TradeSignal` model that the claims mention. -/
structure ParsedSignal where
  direction : String
  confidence : ℚ
  entry_price : ℚ
  stop_loss : ℚ
  take_profit : ℚ
  rationale : String
  timeframe : String
deriving DecidableEq

/-- The three shapes of dict `get_trade_signal` can return: the bare
`{"error": …}` dict of the missing-key path, the conservative fallback of
the `except` branch, and the adapted success dict. -/
inductive SignalResponse where
  | errorOnly (error : String)
  | fallback (signal : String) (confidence : ℚ)
      (entry_price stop_loss take_profit : ℚ) (timeframe reasoning : String)
  | success (signal : String) (confidence : ℚ)
      (entry_price stop_loss take_profit : ℚ) (timeframe reasoning : String)
deriving DecidableEq

/-- The `"signal"` entry of the returned dict, when present. -/
def SignalResponse.signalField : SignalResponse → Option String
  | .errorOnly _ => none
  | .fallback s _ _ _ _ _ _ => some s
  | .success s _ _ _ _ _ _ => some s

/-- The coercion `direction = (parsed.direction or "hold").strip().upper()`,
to `"HOLD"` unless it is one of `BUY`/`SELL`/`HOLD`. -/
def normDirection (s : String) : String :=
  let d := ((pyOr (some s) "hold").trim).toUpper
  if d = "BUY" ∨ d = "SELL" ∨ d = "HOLD" then d else "HOLD"

/-- Model of `get_trade_signal`: returns `{"error": "Missing API_KEY_OPENAI"}` when
the key is absent (before touching the candles); then reads the last close
(`candles.iloc[-1]` — raises `IndexError`, i.e. `none`, on an empty frame);
a raising backend hits the `except` branch returning the conservative
fallback (`HOLD`, confidence 0.2, entry at last close, stop at 0.98×,
target at 1.02×, an error annotation in `reasoning`); otherwise the parsed
completion is adapted with the direction coercion.  The fallback reasoning
string `"AI temporarily unavailable"` abstracts the interpolated exception
text of the source. -/
def get_trade_signal (apiKey : Option String) (backend : Option ParsedSignal)
    (closes : List ℚ) (horizon analysis_interval : Option String) :
    Option SignalResponse :=
  match apiKey with
  | none => some (.errorOnly "Missing API_KEY_OPENAI")
  | some _ =>
    match closes.getLast? with
    | none => none
    | some lastClose =>
      match backend with
      | none =>
        some (.fallback "HOLD" (2 / 10) lastClose (lastClose * (98 / 100))
          (lastClose * (102 / 100))
          (pyOr horizon (pyOr analysis_interval "unspecified"))
          "AI temporarily unavailable")
      | some parsed =>
        some (.success (normDirection parsed.direction) parsed.confidence
          parsed.entry_price parsed.stop_loss parsed.take_profit
          (pyOr (some parsed.timeframe) (pyOr horizon "unspecified"))
          parsed.rationale)

/-- C3 counterexample: with the API credential absent (an internal failure
the claim covers) and a nonempty candle frame, `get_trade_signal` returns the
bare `{"error": "Missing API_KEY_OPENAI"}` dict — it does not raise, but the
result has no `"signal"` entry at all, hence no HOLD direction and no
entry/stop/target prices anchored to the last close. -/
theorem trade_signal_missing_key_counterexample :
    get_trade_signal none none [100] none none
      = some (SignalResponse.errorOnly "Missing API_KEY_OPENAI") ∧
    SignalResponse.signalField (SignalResponse.errorOnly "Missing API_KEY_OPENAI")
      = none :=
  ⟨rfl, rfl⟩

/-- C3 amended: `get_trade_signal` never raises on the two internal-failure
paths the claim names, but only the backend-raising path yields the
well-formed HOLD fallback: with the key present and the backend raising it
returns `HOLD`, confidence 0.2, entry at the last close, stop at 0.98× and
target at 1.02× of it, and an error annotation; with the key absent it
returns an object carrying only the error annotation, without direction or
prices. -/
theorem trade_signal_fallback (closes : List ℚ) (lastClose : ℚ)
    (h : closes.getLast? = some lastClose) (key : String)
    (horizon analysis_interval : Option String) :
    get_trade_signal (some key) none closes horizon analysis_interval
      = some (.fallback "HOLD" (2 / 10) lastClose (lastClose * (98 / 100))
          (lastClose * (102 / 100))
          (pyOr horizon (pyOr analysis_interval "unspecified"))
          "AI temporarily unavailable") ∧
    get_trade_signal none none closes horizon analysis_interval
      = some (.errorOnly "Missing API_KEY_OPENAI") := by
  unfold get_trade_signal
  rw [h]
  exact ⟨rfl, rfl⟩

/-- Witness for C3's amended theorem at `closes = [100]`. -/
theorem trade_signal_fallback_witness :
    get_trade_signal (some "k") none [100] none none
      = some (.fallback "HOLD" (2 / 10) 100 (100 * (98 / 100))
          (100 * (102 / 100)) (pyOr none (pyOr none "unspecified"))
          "AI temporarily unavailable") ∧
    get_trade_signal none none [100] none none
      = some (.errorOnly "Missing API_KEY_OPENAI") :=
  trade_signal_fallback [100] 100 rfl "k" none none

/-- Every coerced direction is `BUY`, `SELL` or `HOLD`. -/
theorem normDirection_mem (s : String) :
    normDirection s = "BUY" ∨ normDirection s = "SELL" ∨
      normDirection s = "HOLD" := by
  unfold normDirection
  set d := (pyOr (some s) "hold").trim.toUpper with hd
  by_cases h : d = "BUY" ∨ d = "SELL" ∨ d = "HOLD"
  · rw [if_pos h]
    exact h
  · rw [if_neg h]
    right; right; rfl

/-- C9: on the successful (non-fallback) path, the `"signal"` field of the
result is the direction string trimmed, upper-cased and coerced, hence always
one of `BUY`, `SELL`, `HOLD`. -/
theorem success_signal_coerced (key : String) (parsed : ParsedSignal)
    (closes : List ℚ) (lastClose : ℚ) (h : closes.getLast? = some lastClose)
    (horizon analysis_interval : Option String) :
    ∃ r : SignalResponse,
      get_trade_signal (some key) (some parsed) closes horizon analysis_interval
        = some r ∧
      r.signalField = some (normDirection parsed.direction) ∧
      (r.signalField = some "BUY" ∨ r.signalField = some "SELL" ∨
        r.signalField = some "HOLD") := by
  refine ⟨.success (normDirection parsed.direction) parsed.confidence
    parsed.entry_price parsed.stop_loss parsed.take_profit
    (pyOr (some parsed.timeframe) (pyOr horizon "unspecified"))
    parsed.rationale, ?_, rfl, ?_⟩
  · unfold get_trade_signal
    rw [h]
  · rcases normDirection_mem parsed.direction with h' | h' | h' <;>
      simp [SignalResponse.signalField, h']

/-- Witness for C9 at a direction string (`" buy it now "`) outside the
recognized set. -/
theorem success_signal_coerced_witness :
    ∃ r : SignalResponse,
      get_trade_signal (some "k")
          (some ⟨" buy it now ", 1 / 2, 100, 98, 104, "r", "1d"⟩)
          [100] none none = some r ∧
      r.signalField = some (normDirection " buy it now ") ∧
      (r.signalField = some "BUY" ∨ r.signalField = some "SELL" ∨
        r.signalField = some "HOLD") :=
  success_signal_coerced "k" ⟨" buy it now ", 1 / 2, 100, 98, 104, "r", "1d"⟩
    [100] 100 rfl none none

/-! ## HTTP boundary — `backend/main.py`, `/signal` and `/candles` handlers -/

/-- FastAPI's `HTTPException(status_code, detail)`. -/
structure HTTPException where
  status_code : ℕ
  detail : String
deriving DecidableEq

/-- The `/signal` handler: builds a frame from the posted candles, rejects an
empty frame with HTTP 400 `"No candles provided"` *before* `add_indicators`
and `get_trade_signal` run, otherwise computes indicators and forwards to
the gateway. -/
def signalEndpoint (candles : List Bar) (apiKey : Option String)
    (backend : Option ParsedSignal) (horizon analysis_interval : Option String) :
    Except HTTPException (Option SignalResponse) :=
  if candles.isEmpty then .error ⟨400, "No candles provided"⟩
  else
    let df := add_indicators candles
    .ok (get_trade_signal apiKey backend (df.map fun r => r.bar.close)
      horizon analysis_interval)

/-- The `/candles` handler around the external fetch: 400 for an unrecognized
interval, and `{"candles": []}` — a valid empty value, not an error — when
the provider returns an empty frame for the normalized range. -/
def candlesEndpoint (interval : String) (fromDate? : Option ℤ) (toDate : ℤ)
    (fetch : ClampedRange → List Bar) : Except HTTPException (List Bar) :=
  match normalizeRange interval fromDate? toDate with
  | none => .error ⟨400, "Invalid interval"⟩
  | some r =>
    let df := fetch r
    if df.isEmpty then .ok [] else .ok df

/-- C10: `/signal` rejects an empty candle list with a synchronous
HTTP 400 `"No candles provided"` regardless of gateway state (the guard sits
before any indicator computation), while `/candles` maps an empty fetch
result for a recognized interval to a successful empty list. -/
theorem signal_empty_is_error_candles_empty_is_value
    (apiKey : Option String) (backend : Option ParsedSignal)
    (horizon analysis_interval : Option String)
    (interval : String) (m : ℕ) (hm : intervalAllowed interval = some m)
    (fromDate? : Option ℤ) (toDate : ℤ) :
    signalEndpoint [] apiKey backend horizon analysis_interval
      = .error ⟨400, "No candles provided"⟩ ∧
    candlesEndpoint interval fromDate? toDate (fun _ => []) = .ok [] := by
  constructor
  · rfl
  · unfold candlesEndpoint normalizeRange
    rw [hm]
    simp

/-- Witness for C10 at interval `"day"` with an empty body/fetch. -/
theorem signal_empty_is_error_candles_empty_is_value_witness :
    signalEndpoint [] none none none none
      = .error ⟨400, "No candles provided"⟩ ∧
    candlesEndpoint "day" none 0 (fun _ => []) = .ok [] :=
  signal_empty_is_error_candles_empty_is_value none none none none
    "day" 3650 rfl none 0

/-! ## FeedRelay — `backend/services/data_source.py` (`_ws_cache`,
`_WSRunner`, `get_stream_runner`; `services/upstox_client.py` `stream_ltp`
is the same shape)

A sink (an `on_message` callback) is an identifier in `ℕ`.  The module-level
`_ws_cache` dict and the upstream connections started by `_WSRunner.start()`
are explicit state.  `get_stream_runner(key, cb)` returns the cached runner
unchanged on a hit — the new callback is *not* registered anywhere — and on
a miss creates a runner holding exactly the one callback, caches it, and
starts one upstream connection. -/

/-- `_ws_cache` (insertion-ordered association list, as a Python dict) plus
the log of upstream connections started so far. -/
structure RelayState where
  cache : List (String × ℕ)
  started : List String
deriving DecidableEq

/-- Fresh module state: empty `_ws_cache`, no connection started. -/
def RelayState.empty : RelayState := ⟨[], []⟩

/-- Model of `get_stream_runner` as a state transformer. -/
def get_stream_runner (st : RelayState) (instrument_key : String)
    (on_message : ℕ) : RelayState :=
  if (st.cache.lookup instrument_key).isSome then st
  else ⟨st.cache ++ [(instrument_key, on_message)], st.started ++ [instrument_key]⟩

/-- The sinks a decoded event arriving for `instrument_key` is dispatched to:
the runner's single `on_message` callback (`streamer.on("message", …)`), if
any runner exists. -/
def deliverSinks (st : RelayState) (instrument_key : String) : List ℕ :=
  match st.cache.lookup instrument_key with
  | some sink => [sink]
  | none => []

/-- A sequence of subscribe calls starting from the given state. -/
def runSubscribesFrom (st : RelayState) (ops : List (String × ℕ)) : RelayState :=
  ops.foldl (fun s op => get_stream_runner s op.1 op.2) st

/-- A sequence of subscribe calls on a fresh module. -/
def runSubscribes (ops : List (String × ℕ)) : RelayState :=
  runSubscribesFrom RelayState.empty ops

/-- Looking up a key after appending a single binding. -/
theorem lookup_append_single (l : List (String × ℕ)) (key k0 : String) (s0 : ℕ) :
    (l ++ [(k0, s0)]).lookup key =
      (l.lookup key).or (if key == k0 then some s0 else none) := by
  induction l with
  | nil =>
    by_cases h : key == k0 <;> simp [List.lookup, h]
  | cons p l ih =>
    obtain ⟨k, v⟩ := p
    by_cases h : key == k <;> simp [List.lookup, h, ih]

/-- After any subscribe sequence, the cached runner for a key is the one of
the first subscribe for that key (or whatever the initial state held). -/
theorem runSubscribesFrom_lookup (ops : List (String × ℕ)) (st : RelayState)
    (key : String) :
    (runSubscribesFrom st ops).cache.lookup key =
      (st.cache.lookup key).or
        (((ops.filter fun op => op.1 == key).head?).map Prod.snd) := by
  induction ops generalizing st with
  | nil => simp [runSubscribesFrom]
  | cons op ops ih =>
    obtain ⟨k0, s0⟩ := op
    have hstep : runSubscribesFrom st ((k0, s0) :: ops) =
        runSubscribesFrom (get_stream_runner st k0 s0) ops := rfl
    rw [hstep, ih]
    unfold get_stream_runner
    by_cases hhit : (st.cache.lookup k0).isSome
    · rw [if_pos hhit]
      by_cases hk : (k0 == key)
      · have hk' : key = k0 := (beq_iff_eq.mp hk).symm
        subst hk'
        obtain ⟨v, hv⟩ := Option.isSome_iff_exists.mp hhit
        simp [List.filter_cons, hk, hv]
      · simp [List.filter_cons, hk]
    · rw [if_neg hhit]
      have hnone : st.cache.lookup k0 = none :=
        Option.not_isSome_iff_eq_none.mp hhit
      by_cases hk : (k0 == key)
      · have hk' : key = k0 := (beq_iff_eq.mp hk).symm
        subst hk'
        simp [lookup_append_single, hnone, List.filter_cons, hk]
      · have hk2 : ¬ (key == k0) = true := by
          intro hkk
          exact hk (by simp [beq_iff_eq.mp hkk])
        simp [lookup_append_single, List.filter_cons, hk, hk2]

/-- After any subscribe sequence, a key's upstream connection count matches
whether a runner is cached for it (one connection per cached runner). -/
theorem runSubscribesFrom_count (ops : List (String × ℕ)) (st : RelayState)
    (key : String)
    (h : st.started.count key =
      (if (st.cache.lookup key).isSome then 1 else 0)) :
    (runSubscribesFrom st ops).started.count key =
      (if ((runSubscribesFrom st ops).cache.lookup key).isSome then 1
       else 0) := by
  induction ops generalizing st with
  | nil => exact h
  | cons op ops ih =>
    obtain ⟨k0, s0⟩ := op
    have hstep : runSubscribesFrom st ((k0, s0) :: ops) =
        runSubscribesFrom (get_stream_runner st k0 s0) ops := rfl
    rw [hstep]
    apply ih
    unfold get_stream_runner
    by_cases hhit : (st.cache.lookup k0).isSome
    · rw [if_pos hhit]
      exact h
    · rw [if_neg hhit]
      have hnone : st.cache.lookup k0 = none :=
        Option.not_isSome_iff_eq_none.mp hhit
      by_cases hk : (k0 == key)
      · have hk' : key = k0 := (beq_iff_eq.mp hk).symm
        subst hk'
        rw [hnone] at h
        simp [List.count_append, lookup_append_single, hnone, hk, h]
      · have hk2 : ¬ (key == k0) = true := by
          intro hkk
          exact hk (by simp [beq_iff_eq.mp hkk])
        simp only [List.count_append, h]
        rw [lookup_append_single]
        have hc : List.count key [k0] = 0 := by simp [List.count_cons, hk]
        have hif : (if (key == k0) = true then some s0 else (none : Option ℕ))
            = none := by simp [hk2]
        rw [hc, hif, Option.or_none, Nat.add_zero]

/-- C2 counterexample: two sinks (`1` then `2`) subscribed to the same
instrument key on a fresh module: one upstream connection is started, but
events are delivered only to sink `1` — sink `2` was never registered, so a
second sink subscribed to an already-connected instrument key receives
nothing, contradicting the claimed fan-out to every registered sink. -/
theorem relay_fanout_counterexample :
    (runSubscribes [("k", 1), ("k", 2)]).started = ["k"] ∧
    deliverSinks (runSubscribes [("k", 1), ("k", 2)]) "k" = [1] ∧
    ¬ (2 : ℕ) ∈ deliverSinks (runSubscribes [("k", 1), ("k", 2)]) "k" := by
  refine ⟨rfl, rfl, ?_⟩
  intro hmem
  simp [runSubscribes, runSubscribesFrom, RelayState.empty,
    get_stream_runner, deliverSinks, List.lookup] at hmem

/-- C2 amended: for every sequence of subscribe calls on a fresh module and
every instrument key, at most one upstream connection is started for that
key — exactly one iff some subscribe mentioned it — and each decoded event
is delivered only to the `on_message` callback of the *first* subscriber for
that key; callbacks of later subscribers to an already-connected key are
never registered and receive nothing. -/
theorem relay_single_connection_first_sink_only (ops : List (String × ℕ))
    (key : String) :
    (runSubscribes ops).started.count key ≤ 1 ∧
    (runSubscribes ops).started.count key =
      (if (((ops.filter fun op => op.1 == key).head?).isSome) then 1
       else 0) ∧
    deliverSinks (runSubscribes ops) key =
      (match (ops.filter fun op => op.1 == key).head? with
       | some op => [op.2]
       | none => []) := by
  have hlookup : (runSubscribes ops).cache.lookup key =
      ((ops.filter fun op => op.1 == key).head?).map Prod.snd := by
    rw [runSubscribes, runSubscribesFrom_lookup]
    rfl
  have hcount : (runSubscribes ops).started.count key =
      (if (((ops.filter fun op => op.1 == key).head?).isSome) then 1
       else 0) := by
    rw [runSubscribes, runSubscribesFrom_count ops RelayState.empty key rfl,
      ← runSubscribes, hlookup]
    cases (ops.filter fun op => op.1 == key).head? <;> rfl
  refine ⟨?_, hcount, ?_⟩
  · rw [hcount]
    split <;> omega
  · rw [deliverSinks, hlookup]
    cases (ops.filter fun op => op.1 == key).head? <;> rfl

end StockPred
